import Mathlib

/-!
Verification development for the RFAM ink toolbox core
(`src/analyzer.py`: `threshold_image` and `compute_metrics`).

Images, masks and intermediate arrays are modelled as row-major nested
lists.  The OpenCV / numpy primitives that the source calls are modelled
after their documented semantics (per spec §9 pixel-exact parity with
OpenCV's rasterizers is not promised; the rasterization conventions used
here are recorded in each definition's comment).  All arithmetic that the
source performs in IEEE doubles is carried out exactly: integer
computations produce rational values only through `mkRat`, so every
definition evaluates by kernel reduction.
-/

namespace Rfam

/-! ### Grids (numpy 2-D arrays) -/

abbrev Grid (α : Type) := List (List α)

def gridMap {α β : Type} (f : α → β) (g : Grid α) : Grid β := g.map (·.map f)

def gridZip {α β γ : Type} (f : α → β → γ) (a : Grid α) (b : Grid β) : Grid γ :=
  List.zipWith (List.zipWith f) a b

/-- `np.zeros(shape[:2], dtype=np.uint8)`. -/
def zerosU8 (h w : ℕ) : Grid ℕ := List.replicate h (List.replicate w 0)

def gridOfFn {α : Type} (h w : ℕ) (f : ℕ → ℕ → α) : Grid α :=
  (List.range h).map (fun i => (List.range w).map (fun j => f i j))

/-- `np.any(mask)` for a uint8 mask. -/
def gridAnyNe (g : Grid ℕ) : Bool := g.any (fun row => row.any (fun v => v != 0))

def gridGet {α : Type} (g : Grid α) (i j : ℕ) (d : α) : α := (g.getD i []).getD j d

/-- Identity continuation that brings a pixel row into normal form before
it is shared (kernel-evaluation sharing; `forceRow_eq`). -/
def forceRow {α : Type} : List ℕ → (List ℕ → α) → α
  | [], k => k []
  | 0 :: t, k => forceRow t (fun t' => k (0 :: t'))
  | (v + 1) :: t, k => forceRow t (fun t' => k ((v + 1) :: t'))

theorem forceRow_eq {α : Type} (l : List ℕ) (k : List ℕ → α) : forceRow l k = k l := by
  induction l generalizing k with
  | nil => rfl
  | cons v t ih => cases v <;> simp [forceRow, ih]

/-- Identity continuation that brings a uint8 grid into normal form
before it is shared (kernel-evaluation sharing; `forceGrid_eq`). -/
def forceGrid {α : Type} : Grid ℕ → (Grid ℕ → α) → α
  | [], k => k []
  | r :: t, k => forceRow r (fun r' => forceGrid t (fun t' => k (r' :: t')))

theorem forceGrid_eq {α : Type} (g : Grid ℕ) (k : Grid ℕ → α) : forceGrid g k = k g := by
  induction g generalizing k with
  | nil => rfl
  | cons r t ih => simp [forceGrid, forceRow_eq, ih]

/-- `np.sum(mask > 0)` in row-major order. -/
def countNonzero (m : Grid ℕ) : ℕ := m.flatten.countP (fun v => v != 0)

/-- Count of `True` entries of a boolean grid. -/
def countTrue (m : Grid Bool) : ℕ := m.flatten.countP id

/-! ### Images -/

/-- An input image: single-channel grayscale or 3-channel BGR
(`image.shape` has length 2 or 3). -/
inductive Image
  | gray (g : Grid ℕ)
  | bgr (g : Grid (ℕ × ℕ × ℕ))
deriving DecidableEq

def Image.height : Image → ℕ
  | .gray g => g.length
  | .bgr g => g.length

def Image.width : Image → ℕ
  | .gray g => (g.getD 0 []).length
  | .bgr g => (g.getD 0 []).length

/-- `len(image.shape) == 3`. -/
def Image.channels3 : Image → Bool
  | .gray _ => false
  | .bgr _ => true

/-- `cv2.cvtColor(·, cv2.COLOR_BGR2GRAY)` on one BGR pixel, OpenCV's
fixed-point luminance: `(B*1868 + G*9617 + R*4899 + 2^13) >> 14`. -/
def bgrToGray (p : ℕ × ℕ × ℕ) : ℕ := (p.1 * 1868 + p.2.1 * 9617 + p.2.2 * 4899 + 8192) / 16384

/-- `gray = image; if len(image.shape) == 3: gray = cv2.cvtColor(...)`. -/
def Image.toGray : Image → Grid ℕ
  | .gray g => g
  | .bgr g => gridMap bgrToGray g

/-! ### Otsu threshold (`cv2.threshold(..., THRESH_BINARY + THRESH_OTSU)`)

OpenCV's `getThreshVal_Otsu_8u` scans `t = 0..255` and keeps the first `t`
whose between-class variance `sigma(t) = q1*q2*(mu1 - mu2)^2` strictly
exceeds the running maximum (initial maximum 0), skipping thresholds with
an empty class.  With class weight `w1 = #[pixels ≤ t]`, `w2 = N - w1`,
class sums `S1 = Σ_{p ≤ t} p`, `S2 = S - S1`, one has
`sigma(t) = (S1*w2 - S2*w1)^2 / (N^2 * w1 * w2)`; `N^2` is common to all
thresholds, so comparison of `(S1*w2 - S2*w1)^2 / (w1*w2)` decides the
maximizer.  We compare these exact fractions by cross-multiplication
(OpenCV does the same computation in doubles). -/

def pixels (g : Grid ℕ) : List ℕ := g.flatten

/-- `w1 t = #[pixels ≤ t]`. -/
def classWeight (g : Grid ℕ) (t : ℕ) : ℕ := (pixels g).countP (fun v => v ≤ t)

/-- `S1 t = Σ_{p ≤ t} p`. -/
def classSum (g : Grid ℕ) (t : ℕ) : ℕ := ((pixels g).filter (fun v => v ≤ t)).sum

/-- Numerator and denominator of `sigma(t) * N^2` (the zero fraction for a
threshold with an empty class, which OpenCV skips). -/
def sigmaFrac (g : Grid ℕ) (t : ℕ) : ℤ × ℤ :=
  let n := (pixels g).length
  let w1 := classWeight g t
  let w2 := n - w1
  if w1 = 0 ∨ w2 = 0 then (0, 1)
  else
    let s1 := (classSum g t : ℤ)
    let s2 := ((pixels g).sum - classSum g t : ℤ)
    ((s1 * w2 - s2 * w1) ^ 2, (w1 : ℤ) * (w2 : ℤ))

/-- `sigma(t) > sigma(t')` by cross-multiplication (denominators are
positive). -/
def sigmaGt (g : Grid ℕ) (t t' : ℕ) : Bool :=
  let a := sigmaFrac g t
  let b := sigmaFrac g t'
  a.1 * b.2 > b.1 * a.2

/-- Otsu's threshold: the first maximizer of the between-class variance
over `t = 0..255`.  OpenCV's running-maximum loop updates only on a
strict increase and therefore also returns the earliest global
maximizer, `0` when every class split is degenerate. -/
def otsuThreshold (g : Grid ℕ) : ℕ :=
  ((List.range 256).find? (fun t => (List.range 256).all (fun u => !sigmaGt g u t))).getD 0

/-- Identity continuation that brings a numeral into normal form before
it is duplicated into every pixel of a grid (kernel-evaluation sharing;
semantically `withNat n k = k n`, see `withNat_eq`). -/
def withNat {α : Type} : ℕ → (ℕ → α) → α
  | 0, k => k 0
  | n + 1, k => k (n + 1)

theorem withNat_eq {α : Type} (n : ℕ) (k : ℕ → α) : withNat n k = k n := by
  cases n <;> rfl

/-- `threshold_image` (analyzer.py lines 8-30): grayscale conversion if
3-channel, `cv2.threshold(gray, 0, 255, THRESH_BINARY + THRESH_OTSU)`
(destination pixel `255` when strictly above the threshold, else `0`),
then `.astype(bool)`. -/
def threshold_image (image : Image) : Grid Bool :=
  let gray := image.toGray
  withNat (otsuThreshold gray) (fun t =>
    let thresh := gridMap (fun p => if t < p then (255 : ℕ) else 0) gray
    gridMap (fun v => v != 0) thresh)

/-! ### ROI rasterization (`cv2.fillPoly`, `cv2.circle`) -/

/-- Points are `(x, y)` = (column, row), as in OpenCV. -/
abbrev Pt := ℤ × ℤ

/-- `cv2.circle(mask, center, radius, 255, -1)`: a pixel belongs to the
filled disc when its center lies within or on the disc boundary. -/
def inDisc (c : Pt) (r : ℤ) (x y : ℤ) : Bool :=
  (x - c.1) ^ 2 + (y - c.2) ^ 2 ≤ r ^ 2

def circleMask (h w : ℕ) (c : Pt) (r : ℤ) : Grid ℕ :=
  gridOfFn h w (fun i j => if inDisc c r (j : ℤ) (i : ℤ) then 255 else 0)

/-- Closed edge list of a polygon / contour: each vertex to its successor,
last vertex back to the first. -/
def closedEdges (pts : List Pt) : List (Pt × Pt) :=
  match pts with
  | [] => []
  | p :: _ => pts.zip (pts.tail ++ [p])

/-- One even-odd crossing test of the horizontal ray `{(u, y) | u > x}`
against edge `(x1,y1)-(x2,y2)` (half-open in `y`, so vertices are not
counted twice). -/
def edgeCross (x y x1 y1 x2 y2 : ℤ) : Bool :=
  if y1 ≤ y ∧ y < y2 then (x - x1) * (y2 - y1) < (x2 - x1) * (y - y1)
  else if y2 ≤ y ∧ y < y1 then (x - x1) * (y2 - y1) > (x2 - x1) * (y - y1)
  else false

def onSegment (x y x1 y1 x2 y2 : ℤ) : Bool :=
  decide ((x - x1) * (y2 - y1) = (x2 - x1) * (y - y1) ∧
    min x1 x2 ≤ x ∧ x ≤ max x1 x2 ∧ min y1 y2 ≤ y ∧ y ≤ max y1 y2)

/-- `cv2.fillPoly(mask, [pts], 255)`: filled interior under the even-odd
rule, boundary pixels included (spec §4.2 leaves the fill rule to the
implementer's documented choice). -/
def inPolygon (pts : List Pt) (x y : ℤ) : Bool :=
  let es := closedEdges pts
  es.any (fun e => onSegment x y e.1.1 e.1.2 e.2.1 e.2.2) ||
    ((es.countP (fun e => edgeCross x y e.1.1 e.1.2 e.2.1 e.2.2)) % 2 == 1)

def fillPolyMask (h w : ℕ) (pts : List Pt) : Grid ℕ :=
  gridOfFn h w (fun i j => if inPolygon pts (j : ℤ) (i : ℤ) then 255 else 0)

/-! ### ROIs -/

/-- An ROI dict as the GUI produces it and `compute_metrics` consumes it:
geometry (`type`, `points`, `center`, `radius`) plus caller metadata
(`label`, `ink_key`, `rep`) that the core never reads. -/
structure Roi where
  rtype : String
  points : List Pt
  center : Pt
  radius : ℤ
  label : String
  ink_key : String
  rep : ℕ
deriving DecidableEq

/-- Step 1 of `compute_metrics` (lines 51-63): the full-resolution binary
ROI mask (zeros for an unsupported tag, which the caller short-circuits
on before using it). -/
def rasterRoiMask (h w : ℕ) (roi : Roi) : Grid ℕ :=
  if roi.rtype = "polygon" then fillPolyMask h w roi.points
  else if roi.rtype = "circle" then circleMask h w roi.center roi.radius
  else zerosU8 h w

/-- `cv2.bitwise_and(gray, gray, mask=mask)`: the pixel value where the
mask is set, `0` elsewhere. -/
def bitwiseAndMask (g : Grid ℕ) (mask : Grid ℕ) : Grid ℕ :=
  gridZip (fun v m => if m != 0 then v else 0) g mask

/-! ### Contours (`cv2.findContours(..., RETR_EXTERNAL, CHAIN_APPROX_SIMPLE)`)

`findContours` returns one external boundary per 8-connected component of
the nonzero pixels.  We extract the components by a union fold, trace
each component's outer boundary with Moore neighbour tracing, and then
apply `CHAIN_APPROX_SIMPLE` compression: runs of boundary steps in one
Freeman direction are collapsed to their end points, so only the points
where the walk turns remain (an axis-aligned rectangle keeps its 4
corners).  Compression changes neither arc length, enclosed area nor
polygon moments, but it does change the *point count*, which the halo
step's `len(hc) >= 5` guard consumes, so it must be modelled.  (Spec §9
does not require pixel-exact parity with OpenCV's border following.) -/

/-- The set pixels of a mask as `(x, y)` points, in raster order. -/
def maskPts (m : Grid ℕ) : List Pt :=
  (List.range m.length).flatMap (fun i =>
    (List.range ((m.getD i []).length)).filterMap (fun j =>
      if (m.getD i []).getD j 0 != 0 then some ((j : ℤ), (i : ℤ)) else none))

/-- 8-neighbourhood adjacency. -/
def adj8 (p q : Pt) : Bool :=
  decide (p ≠ q ∧ (p.1 - q.1).natAbs ≤ 1 ∧ (p.2 - q.2).natAbs ≤ 1)

/-- Add one pixel to a partition into 8-connected pieces, merging every
piece it touches. -/
def addPoint (comps : List (List Pt)) (p : Pt) : List (List Pt) :=
  let touching := comps.filter (fun c => c.any (fun q => adj8 p q))
  let rest := comps.filter (fun c => !c.any (fun q => adj8 p q))
  (p :: touching.flatten) :: rest

/-- The 8-connected components of the nonzero pixels. -/
def components (m : Grid ℕ) : List (List Pt) := (maskPts m).foldl addPoint []

/-- The 8 neighbour directions, clockwise in image coordinates
(y grows downward), starting east. -/
def dirs8 : List Pt := [(1, 0), (1, 1), (0, 1), (-1, 1), (-1, 0), (-1, -1), (0, -1), (1, -1)]

def ptAdd (p q : Pt) : Pt := (p.1 + q.1, p.2 + q.2)

/-- First component neighbour of `c`, scanning the 8 directions clockwise
from direction index `start`. -/
def findNext (comp : List Pt) (c : Pt) (start : ℕ) : Option (ℕ × Pt) :=
  (List.range 8).findSome? (fun k =>
    let d := (start + k) % 8
    let n := ptAdd c (dirs8.getD d (0, 0))
    if comp.contains n then some (d, n) else none)

/-- Moore neighbour tracing: walk the boundary clockwise until the start
pixel is reached again (`fuel` bounds the walk; `4 * |comp| + 8` steps
always suffice for the closed boundary). -/
def traceLoop (comp : List Pt) (startPt : Pt) : ℕ → Pt → ℕ → List Pt → List Pt
  | 0, _, _, acc => acc.reverse
  | fuel + 1, c, pd, acc =>
    match findNext comp c ((pd + 5) % 8) with
    | none => acc.reverse
    | some (d, n) =>
      if n = startPt then acc.reverse
      else traceLoop comp startPt fuel n d (n :: acc)

/-- Topmost-then-leftmost pixel of a component: a boundary pixel with no
component pixel above it or to its upper left. -/
def topLeft (comp : List Pt) : Pt :=
  comp.foldl (fun b p => if p.2 < b.2 ∨ (p.2 = b.2 ∧ p.1 < b.1) then p else b)
    (comp.headD (0, 0))

/-- The external boundary contour of one component (a single isolated
pixel yields the one-point contour). -/
def traceContour (comp : List Pt) : List Pt :=
  let s := topLeft comp
  traceLoop comp s (4 * comp.length + 8) s 3 [s]

def ptSub (p q : Pt) : Pt := (p.1 - q.1, p.2 - q.2)

/-- `CHAIN_APPROX_SIMPLE`: drop every point of the closed boundary chain
whose incoming and outgoing step directions coincide (the chain is
treated cyclically); one- and two-point chains are kept as they are. -/
def compressChain (c : List Pt) : List Pt :=
  if c.length ≤ 2 then c
  else
    let n := c.length
    (List.range n).filterMap (fun i =>
      let prev := c.getD ((i + n - 1) % n) (0, 0)
      let cur := c.getD i (0, 0)
      let next := c.getD ((i + 1) % n) (0, 0)
      if ptSub cur prev = ptSub next cur then none else some cur)

/-- `cv2.findContours(mask, RETR_EXTERNAL, CHAIN_APPROX_SIMPLE)[0]`. -/
def findContours (m : Grid ℕ) : List (List Pt) :=
  (components m).map (fun comp => compressChain (traceContour comp))

/-! ### Contour geometry (`cv2.contourArea`, `cv2.arcLength`,
`cv2.moments`, `cv2.convexHull`) -/

/-- `2 * (signed enclosed area)` of a closed polyline, by the shoelace
formula (the quantity OpenCV calls `a00`). -/
def orientedDoubleArea (c : List Pt) : ℤ :=
  ((closedEdges c).map (fun e => e.1.1 * e.2.2 - e.2.1 * e.1.2)).sum

/-- `cv2.contourArea(c)` (unoriented): `|a00| / 2`. -/
def contourArea (c : List Pt) : ℚ := mkRat ((orientedDoubleArea c).natAbs : ℤ) 2

/-- `max(contours, key=cv2.contourArea)`: Python's `max` keeps the first
maximal element. -/
def maxByArea (l : List (List Pt)) : List Pt :=
  l.foldl (fun best c =>
    if (orientedDoubleArea c).natAbs > (orientedDoubleArea best).natAbs then c else best)
    (l.headD [])

/-- The squared Euclidean lengths of the closed contour's segments.
`cv2.arcLength(c, True)` is the sum of their square roots; the source
only stores that sum and compares it against `0`, and
`arcLength > 0 ↔ some squared length > 0`. -/
def segSqLens (c : List Pt) : List ℚ :=
  (closedEdges c).map (fun e => mkRat ((e.2.1 - e.1.1) ^ 2 + (e.2.2 - e.1.2) ^ 2) 1)

/-- `cv2.arcLength(c, True) > 0`. -/
def arcLengthPos (c : List Pt) : Bool :=
  (closedEdges c).any (fun e => (e.2.1 - e.1.1) ^ 2 + (e.2.2 - e.1.2) ^ 2 > 0)

/-- Raw boundary integrals of `cv2.moments` (OpenCV `contourMoments`):
for each closed edge from `(xp, yp)` to `(xq, yq)`,
`dxy = xp*yq - xq*yp` accumulates into
`a00 += dxy`, `a10 += dxy*(xp+xq)`, `a01 += dxy*(yp+yq)`,
`a20 += dxy*(xp^2+xp*xq+xq^2)`, `a11 += dxy*(xp*(2yp+yq)+xq*(yp+2yq))`,
`a02 += dxy*(yp^2+yp*yq+yq^2)`.  OpenCV then multiplies all six by
`sign(a00)` (so `m00 ≥ 0`) and scales:
`m00 = a00/2, m10 = a10/6, m01 = a01/6, m20 = a20/12, m11 = a11/24,
m02 = a02/12`; finally `mu20 = m20 - m10*cx`, `mu11 = m11 - m10*cy`,
`mu02 = m02 - m01*cy` with `cx = m10/m00`, `cy = m01/m00`.
We keep the signed raw sums; every consumer below divides them out
exactly. -/
structure RawMoments where
  a00 : ℤ
  a10 : ℤ
  a01 : ℤ
  a20 : ℤ
  a11 : ℤ
  a02 : ℤ
deriving DecidableEq

def rawMoments (c : List Pt) : RawMoments :=
  let es := closedEdges c
  let dxy := fun (e : Pt × Pt) => e.1.1 * e.2.2 - e.2.1 * e.1.2
  let sg : ℤ := if ((es.map dxy).sum) > 0 then 1 else -1
  { a00 := sg * (es.map dxy).sum
    a10 := sg * (es.map (fun e => dxy e * (e.1.1 + e.2.1))).sum
    a01 := sg * (es.map (fun e => dxy e * (e.1.2 + e.2.2))).sum
    a20 := sg * (es.map (fun e => dxy e * (e.1.1 ^ 2 + e.1.1 * e.2.1 + e.2.1 ^ 2))).sum
    a11 := sg * (es.map (fun e =>
      dxy e * (e.1.1 * (2 * e.1.2 + e.2.2) + e.2.1 * (e.1.2 + 2 * e.2.2)))).sum
    a02 := sg * (es.map (fun e => dxy e * (e.1.2 ^ 2 + e.1.2 * e.2.2 + e.2.2 ^ 2))).sum }

/-- Integer numerators of the normalized central moments
`mu20' = mu20/m00`, `mu02' = mu02/m00`, `mu11' = mu11/m00` over the
common denominators `18*a00^2` (for `mu20', mu02'`) and `36*a00^2`
(for `mu11'`):
`mu20/m00 = (3*a20*a00 - 2*a10^2) / (18*a00^2)`,
`mu02/m00 = (3*a02*a00 - 2*a01^2) / (18*a00^2)`,
`mu11/m00 = (3*a11*a00 - 4*a10*a01) / (36*a00^2)`. -/
def muNums (M : RawMoments) : ℤ × ℤ × ℤ :=
  (3 * M.a20 * M.a00 - 2 * M.a10 ^ 2,
   3 * M.a02 * M.a00 - 2 * M.a01 ^ 2,
   3 * M.a11 * M.a00 - 4 * M.a10 * M.a01)

/-- The normalized central moments `(mu20/m00, mu02/m00, mu11/m00)` as
exact rationals (only defined when `a00 ≠ 0`). -/
def normalizedMu (M : RawMoments) : ℚ × ℚ × ℚ :=
  let p := muNums M
  (mkRat p.1 (18 * M.a00 ^ 2).toNat,
   mkRat p.2.1 (18 * M.a00 ^ 2).toNat,
   mkRat p.2.2 (36 * M.a00 ^ 2).toNat)

/-- The denominator `den = mu20' + mu02' + sqrt((mu20'-mu02')^2 + 4*mu11'^2)`
of the source's `inertia_ratio` is zero iff `mu20' + mu02' ≤ 0` and
`mu11'^2 = mu20' * mu02'` (the square root is nonnegative, so `den = 0`
iff the root equals `-(mu20'+mu02')`, i.e. `mu20'+mu02' ≤ 0` and
`(mu20'-mu02')^2 + 4 mu11'^2 = (mu20'+mu02')^2`, i.e. `mu11'^2 = mu20' mu02'`).
Over the integer numerators `p20, p02` (denominator `18 a00^2`) and `p11`
(denominator `36 a00^2 = 2 * 18 a00^2`) this reads
`p20 + p02 ≤ 0 ∧ p11^2 = 4 * p20 * p02`. -/
def inertiaDenZero (M : RawMoments) : Bool :=
  let p := muNums M
  decide (p.1 + p.2.1 ≤ 0 ∧ p.2.2 ^ 2 = 4 * p.1 * p.2.1)

/-- Orientation of the triple `(o, a, b)` (positive = counterclockwise in
mathematical coordinates). -/
def cross3 (o a b : Pt) : ℤ := (a.1 - o.1) * (b.2 - o.2) - (a.2 - o.2) * (b.1 - o.1)

/-- Pop chain points that make a non-right turn with the incoming point
(Andrew's monotone chain). -/
def chainPush (p : Pt) : List Pt → List Pt
  | a :: b :: rest => if cross3 b a p ≤ 0 then chainPush p (b :: rest) else a :: b :: rest
  | l => l

def halfChain (pts : List Pt) : List Pt :=
  (pts.foldl (fun acc p => p :: chainPush p acc) []).reverse

/-- Insertion into a lexicographically sorted point list (kernel-reducible
sort; the hull's enclosed area does not depend on the insertion order). -/
def insertPtSorted (p : Pt) : List Pt → List Pt
  | [] => [p]
  | q :: t =>
    if p.1 < q.1 ∨ (p.1 = q.1 ∧ p.2 ≤ q.2) then p :: q :: t else q :: insertPtSorted p t

def sortPts (l : List Pt) : List Pt := l.foldl (fun acc p => insertPtSorted p acc) []

/-- `cv2.convexHull(c)`, by Andrew's monotone chain; only the hull's
enclosed area is consumed downstream. -/
def convexHull (pts : List Pt) : List Pt :=
  if pts.length ≤ 2 then pts
  else
    let sorted := sortPts pts
    let lower := halfChain sorted
    let upper := halfChain sorted.reverse
    lower.dropLast ++ upper.dropLast

/-! ### Morphology (`cv2.getStructuringElement`, `cv2.erode`, `cv2.subtract`) -/

/-- `cv2.getStructuringElement(cv2.MORPH_ELLIPSE, (5,5))` as `(dx, dy)`
offsets from the anchor (OpenCV's 5×5 ellipse: full middle three rows,
single centre pixel in the first and last row). -/
def ellipse5 : List Pt :=
  [(0, -2),
   (-2, -1), (-1, -1), (0, -1), (1, -1), (2, -1),
   (-2, 0), (-1, 0), (0, 0), (1, 0), (2, 0),
   (-2, 1), (-1, 1), (0, 1), (1, 1), (2, 1),
   (0, 2)]

/-- `cv2.erode(mask, ellipse5, iterations=1)` on a 0/255 mask: a pixel
stays set iff every in-bounds pixel under the kernel is set
(`cv2.erode`'s default border value is `+inf`, so out-of-image
neighbours never erase a pixel). -/
def erode5 (m : Grid ℕ) : Grid ℕ :=
  let h := m.length
  let w := (m.getD 0 []).length
  gridOfFn h w (fun i j =>
    if ellipse5.all (fun d =>
        let x := (j : ℤ) + d.1
        let y := (i : ℤ) + d.2
        if 0 ≤ x ∧ x < (w : ℤ) ∧ 0 ≤ y ∧ y < (h : ℤ) then
          (m.getD y.toNat []).getD x.toNat 0 != 0
        else true)
    then 255 else 0)

/-- `cv2.subtract(a, b)` on uint8: saturating subtraction (ℕ subtraction
truncates at 0 the same way). -/
def subtractU8 (a b : Grid ℕ) : Grid ℕ := gridZip (fun x y => x - y) a b

/-! ### Pixel statistics (`np.mean`, `np.median`, `np.std`) -/

/-- `gray[object_mask.astype(bool)]`: the grayscale values of the set
pixels, in row-major order. -/
def maskedPixels (g : Grid ℕ) (m : Grid ℕ) : List ℕ :=
  ((gridZip (fun v mv => (v, mv)) g m).flatten).filterMap
    (fun p => if p.2 != 0 then some p.1 else none)

/-- `np.mean`: the exact rational `Σ l / |l|`. -/
def npMean (l : List ℕ) : ℚ := mkRat (l.sum : ℤ) l.length

/-- Ascending insertion sort (`np.sort`). -/
def insertSorted (a : ℕ) : List ℕ → List ℕ
  | [] => [a]
  | b :: t => if a ≤ b then a :: b :: t else b :: insertSorted a t

def sortAsc (l : List ℕ) : List ℕ := l.foldl (fun acc a => insertSorted a acc) []

/-- `np.median`: mean of the two middle elements of the sorted values
(they coincide for odd length). -/
def npMedian (l : List ℕ) : ℚ :=
  let s := sortAsc l
  mkRat ((s.getD ((s.length - 1) / 2) 0 : ℤ) + (s.getD (s.length / 2) 0 : ℤ)) 2

/-- The population variance `Σ (x - mean)^2 / n = (n Σ x^2 - (Σ x)^2) / n^2`
of the values; `np.std` (the source's `std_I`) is its square root, an
irrational number in general, so the record below stores this exact
square. -/
def npVarianceSq (l : List ℕ) : ℚ :=
  mkRat ((l.length : ℤ) * (((l.map (fun v => v ^ 2)).sum : ℕ) : ℤ) - ((l.sum : ℤ)) ^ 2)
    (l.length ^ 2)

/-! ### The metrics record

The source returns a Python dict whose keys appear incrementally.  A
claim of the spec distinguishes a key that is *absent* from a key that is
*present with value `None`*, so each optional entry is a three-state
field.  Where the source stores an irrational float (a square root, or a
value involving π), the field carries the exact data that determines that
float; the correspondence is documented at each field. -/

inductive Fld (α : Type)
  | absent
  | null
  | val (a : α)
deriving DecidableEq

/-- `isinstance(px_per_mm, (int, float))` succeeds on `num`, fails on
`nonNum` (a non-numeric Python value; such objects are truthy). -/
inductive PxVal
  | num (q : ℚ)
  | nonNum
deriving DecidableEq

structure Results where
  /-- `results['contours']` (absent only in the empty record). -/
  contours : Option (List (List Pt))
  /-- `results['mask_full']` (absent only in the empty record). -/
  mask_full : Option (Grid Bool)
  mean_I : Fld ℚ
  median_I : Fld ℚ
  /-- Stores the population variance; the source's `std_I` float is its
  square root (`np.std`). -/
  std_I : Fld ℚ
  area_px : Fld ℕ
  intensity_pixels : Fld (List ℕ)
  /-- Stores the squared segment lengths; the source's float is the sum
  of their square roots (`cv2.arcLength`). -/
  perimeter_px : Fld (List ℚ)
  /-- Stores `(area, squared segment lengths)`; the source's float is
  `4π·area / arcLength²`. -/
  circularity : Fld (ℚ × List ℚ)
  /-- Stores the normalized central moments `(mu20', mu02', mu11')`; the
  source's inertia-ratio float is
  `(mu20'+mu02'-term)/(mu20'+mu02'+term)` with
  `term = sqrt((mu20'-mu02')^2 + 4 mu11'^2)`.  (The field carries the
  record entry the source writes for the inertia ratio, under a
  shortened name.) -/
  inertia : Fld (ℚ × ℚ × ℚ)
  convexity : Fld ℚ
  /-- Stores the radicand `1 - b²/a²`; the source's float is
  `np.sqrt` of it — `NaN` when the radicand is negative. -/
  halo_eccentricity : Fld ℚ
  area_mm2 : Fld ℚ
deriving DecidableEq

/-- `{}` — the empty record. -/
def emptyResults : Results :=
  ⟨none, none, .absent, .absent, .absent, .absent, .absent, .absent, .absent, .absent,
   .absent, .absent, .absent⟩

/-- Abstraction of `cv2.fitEllipse`: `((cx, cy), (width, height), angle)`.
The fit solves a least-squares eigenproblem whose output is irrational in
general; the claims constrain only how `compute_metrics` consumes the
returned axes, so the fit is a parameter (quantized to the integer grid).
OpenCV normalizes the returned box so that `width ≤ height`. -/
abbrev EllipseFit := List Pt → (ℤ × ℤ) × (ℤ × ℤ) × ℤ

/-! ### `compute_metrics` (analyzer.py lines 33-160), split into the
source's numbered steps -/

/-- Step 7: intensity metrics on object pixels. -/
def step_intensity (do_intensity : Bool) (gray object_mask : Grid ℕ) (r : Results) : Results :=
  if do_intensity then
    let obj_pixels := maskedPixels gray object_mask
    let r1 :=
      if obj_pixels.length > 0 then
        { r with mean_I := .val (npMean obj_pixels), median_I := .val (npMedian obj_pixels),
                 std_I := .val (npVarianceSq obj_pixels) }
      else { r with mean_I := .null, median_I := .null, std_I := .null }
    { r1 with area_px := .val (countNonzero object_mask),
              intensity_pixels := .val obj_pixels }
  else r

/-- Step 8: shape metrics on the largest contour. -/
def step_shape (do_shape : Bool) (contours : List (List Pt)) (r : Results) : Results :=
  if do_shape && !contours.isEmpty then
    let cnt := maxByArea contours
    let area := contourArea cnt
    let r1 := { r with perimeter_px := .val (segSqLens cnt),
                       circularity := if arcLengthPos cnt then .val (area, segSqLens cnt)
                         else .null }
    let M := rawMoments cnt
    let r2 :=
      if M.a00 ≠ 0 then
        { r1 with inertia := if inertiaDenZero M then .null else .val (normalizedMu M) }
      else r1
    let hull := convexHull cnt
    let hull_area := (orientedDoubleArea hull).natAbs
    let conv : Fld ℚ :=
      if hull_area > 0 then Fld.val (mkRat ((orientedDoubleArea cnt).natAbs : ℤ) hull_area)
      else Fld.null
    { r2 with convexity := conv }
  else r

/-- Step 9: halo eccentricity.  `a = axes[0]/2`, `b = axes[1]/2` straight
from the fit (the source does not sort them); when `a > 0` it stores
`np.sqrt(1 - b²/a²)`, whose radicand `(a² - b²)/a² = (axes0² - axes1²)/axes0²`
this field records. -/
def step_halo (do_halo : Bool) (fitE : EllipseFit) (object_mask : Grid ℕ)
    (contours : List (List Pt)) (r : Results) : Results :=
  if do_halo && !contours.isEmpty then
    let core := erode5 object_mask
    let halo := subtractU8 object_mask core
    let halo_cnts := findContours halo
    if !halo_cnts.isEmpty then
      let hc := maxByArea halo_cnts
      if hc.length ≥ 5 then
        let axes := (fitE hc).2.1
        if axes.1 > 0 then
          { r with halo_eccentricity := .val (mkRat (axes.1 ^ 2 - axes.2 ^ 2) (axes.1 ^ 2).toNat) }
        else r
      else r
    else r
  else r

/-- Step 10: area conversion.  `if px_per_mm and isinstance(px_per_mm,
(int, float)) and px_per_mm > 0`: truthiness (`≠ 0`), the isinstance
check, positivity; then only when `'area_px' in results`.
`area_px / px_per_mm²` for `px_per_mm = n/d` in lowest terms is
`area_px·d²/n²`. -/
def step_px (px_per_mm : Option PxVal) (r : Results) : Results :=
  match px_per_mm with
  | some (.num q) =>
    if q ≠ 0 ∧ 0 < q then
      match r.area_px with
      | .val n =>
        { r with area_mm2 := .val (mkRat ((n : ℤ) * (q.den : ℤ) ^ 2) (q.num ^ 2).toNat) }
      | _ => r
    else r
  | some .nonNum => r
  | none => r

/-- `compute_metrics(image, roi, px_per_mm, do_intensity, do_shape,
do_halo)` (analyzer.py lines 33-160). -/
def compute_metrics (fitE : EllipseFit) (image : Image) (roi : Roi)
    (px_per_mm : Option PxVal) (do_intensity do_shape do_halo : Bool) : Results :=
  -- 1) build the binary ROI mask; unsupported ROI types → no metrics
  if roi.rtype = "polygon" ∨ roi.rtype = "circle" then
    let mask := rasterRoiMask image.height image.width roi
    -- 2) grayscale conversion
    let gray := image.toGray
    -- 3) blackout outside the ROI (computed by the source, unused below)
    let _roi_gray := bitwiseAndMask gray mask
    -- 4) if the ROI is empty, bail
    if gridAnyNe mask then
      -- 5) global Otsu threshold on the whole image; invert within the ROI
      let global_thresh := threshold_image image
      forceGrid (gridZip (fun m t => if !t && m != 0 then (255 : ℕ) else 0) mask global_thresh)
        (fun object_mask =>
          -- 6) external contours of the object(s)
          let contours := findContours object_mask
          let r0 : Results :=
            { emptyResults with contours := some contours,
                                mask_full := some (gridMap (fun v => v != 0) object_mask) }
          step_px px_per_mm
            (step_halo do_halo fitE object_mask contours
              (step_shape do_shape contours
                (step_intensity do_intensity gray object_mask r0))))
    else emptyResults
  else emptyResults

/-! ### Specification-side definitions (the spec's wording, for the
refinement statements) -/

/-- The uint8 object mask exactly as `compute_metrics` builds it
(step 5). -/
def objMaskU8 (image : Image) (roi : Roi) : Grid ℕ :=
  gridZip (fun m t => if !t && m != 0 then (255 : ℕ) else 0)
    (rasterRoiMask image.height image.width roi) (threshold_image image)

/-- The spec's object mask: `roi_mask ∧ ¬classification`, the
classification being the global threshold of the whole image. -/
def objectMaskSpec (image : Image) (roi : Roi) : Grid Bool :=
  gridZip (fun m t => m != 0 && !t)
    (rasterRoiMask image.height image.width roi) (threshold_image image)

/-- `a ⊆ b` pointwise: wherever the boolean grid is set, the uint8 mask
is nonzero. -/
def gridSubset (a : Grid Bool) (b : Grid ℕ) : Bool :=
  (gridZip (fun x y => !x || y != 0) a b).all (fun row => row.all id)

/-- The spec's selection "the grayscale intensities of exactly the
object pixels": the pixels of the grayscale image under the boolean
object mask, row-major. -/
def objectPixelsSpec (image : Image) (roi : Roi) : List ℕ :=
  ((gridZip (fun v b => (v, b)) image.toGray (objectMaskSpec image roi)).flatten).filterMap
    (fun p => if p.2 then some p.1 else none)

/-- The spec's unit conversion (§4.7): `area_mm2 = area_px / px_per_mm²`
exactly when `px_per_mm` is a supplied positive number — and, as the
code additionally requires, when `area_px` itself was computed. -/
def areaMm2Spec (px : Option PxVal) (ap : Fld ℕ) : Fld ℚ :=
  match px, ap with
  | some (.num q), .val n =>
    if 0 < q then Fld.val (mkRat ((n : ℤ) * (q.den : ℤ) ^ 2) (q.num ^ 2).toNat)
    else Fld.absent
  | _, _ => Fld.absent

/-- Modelled from the spec (§4.6): "let `a ≥ b` be its semi-major /
semi-minor radii; `eccentricity = sqrt(1 − (b/a)²)`" — the radicand of
the specified eccentricity, with the fitted axes correctly ordered. -/
def specEccRadicand (w h : ℤ) : ℚ :=
  mkRat ((max w h) ^ 2 - (min w h) ^ 2) ((max w h) ^ 2).toNat

/-! ### Helper lemmas -/

theorem getD_map_nil {α β : Type} (f : α → β) (l : List (List α)) (i : ℕ) :
    (l.map (·.map f)).getD i [] = (l.getD i []).map f := by
  induction l generalizing i with
  | nil => cases i <;> rfl
  | cons r t ih =>
    cases i with
    | zero => rfl
    | succ n => simpa using ih n

theorem getD_map_d {α β : Type} (f : α → β) (l : List α) (j : ℕ) (d : α) :
    (l.map f).getD j (f d) = f (l.getD j d) := by
  induction l generalizing j with
  | nil => cases j <;> rfl
  | cons a t ih => cases j <;> simp [List.getD, ih]

theorem row_subset_aux (f : ℕ → Bool → Bool) (hf : ∀ x y, (!(f x y) || (x != 0)) = true)
    (r : List ℕ) (s : List Bool) :
    (List.zipWith (fun x y => !x || y != 0) (List.zipWith f r s) r).all id = true := by
  induction r generalizing s with
  | nil => rfl
  | cons a t ih =>
    cases s with
    | nil => rfl
    | cons b u => simpa [List.zipWith, List.all, hf a b] using ih u

theorem grid_subset_aux (f : ℕ → Bool → Bool) (hf : ∀ x y, (!(f x y) || (x != 0)) = true)
    (m : Grid ℕ) (s : Grid Bool) :
    gridSubset (gridZip f m s) m = true := by
  unfold gridSubset gridZip
  induction m generalizing s with
  | nil => rfl
  | cons r t ih =>
    cases s with
    | nil => rfl
    | cons b u =>
      simpa [List.zipWith, List.all, row_subset_aux f hf r b] using ih u

/-- The boolean `mask_full` equals the spec-side object mask. -/
theorem maskFull_eq_spec (image : Image) (roi : Roi) :
    gridMap (fun v => v != 0) (objMaskU8 image roi) = objectMaskSpec image roi := by
  unfold objMaskU8 objectMaskSpec gridMap gridZip
  rw [List.map_zipWith]
  congr 1
  funext r s
  rw [List.map_zipWith]
  congr 1
  funext m t
  cases t <;> by_cases h : m = 0 <;> simp [h]

/-! Field-preservation lemmas for the pipeline steps. -/

theorem step_intensity_keeps (di : Bool) (g om : Grid ℕ) (r : Results) :
    (step_intensity di g om r).contours = r.contours
    ∧ (step_intensity di g om r).mask_full = r.mask_full
    ∧ (step_intensity di g om r).perimeter_px = r.perimeter_px
    ∧ (step_intensity di g om r).circularity = r.circularity
    ∧ (step_intensity di g om r).inertia = r.inertia
    ∧ (step_intensity di g om r).convexity = r.convexity
    ∧ (step_intensity di g om r).halo_eccentricity = r.halo_eccentricity
    ∧ (step_intensity di g om r).area_mm2 = r.area_mm2 := by
  cases di <;> unfold step_intensity <;> simp <;> split <;> simp

theorem step_shape_keeps (ds : Bool) (cnts : List (List Pt)) (r : Results) :
    (step_shape ds cnts r).contours = r.contours
    ∧ (step_shape ds cnts r).mask_full = r.mask_full
    ∧ (step_shape ds cnts r).mean_I = r.mean_I
    ∧ (step_shape ds cnts r).median_I = r.median_I
    ∧ (step_shape ds cnts r).std_I = r.std_I
    ∧ (step_shape ds cnts r).area_px = r.area_px
    ∧ (step_shape ds cnts r).intensity_pixels = r.intensity_pixels
    ∧ (step_shape ds cnts r).halo_eccentricity = r.halo_eccentricity
    ∧ (step_shape ds cnts r).area_mm2 = r.area_mm2 := by
  unfold step_shape
  split
  · dsimp only
    split <;> simp
  · simp

theorem step_halo_keeps (dh : Bool) (fitE : EllipseFit) (om : Grid ℕ)
    (cnts : List (List Pt)) (r : Results) :
    (step_halo dh fitE om cnts r).contours = r.contours
    ∧ (step_halo dh fitE om cnts r).mask_full = r.mask_full
    ∧ (step_halo dh fitE om cnts r).mean_I = r.mean_I
    ∧ (step_halo dh fitE om cnts r).median_I = r.median_I
    ∧ (step_halo dh fitE om cnts r).std_I = r.std_I
    ∧ (step_halo dh fitE om cnts r).area_px = r.area_px
    ∧ (step_halo dh fitE om cnts r).intensity_pixels = r.intensity_pixels
    ∧ (step_halo dh fitE om cnts r).perimeter_px = r.perimeter_px
    ∧ (step_halo dh fitE om cnts r).circularity = r.circularity
    ∧ (step_halo dh fitE om cnts r).inertia = r.inertia
    ∧ (step_halo dh fitE om cnts r).convexity = r.convexity
    ∧ (step_halo dh fitE om cnts r).area_mm2 = r.area_mm2 := by
  unfold step_halo
  split
  · dsimp only
    split
    · split
      · split <;> simp
      · simp
    · simp
  · simp

theorem step_px_keeps (px : Option PxVal) (r : Results) :
    (step_px px r).contours = r.contours
    ∧ (step_px px r).mask_full = r.mask_full
    ∧ (step_px px r).mean_I = r.mean_I
    ∧ (step_px px r).median_I = r.median_I
    ∧ (step_px px r).std_I = r.std_I
    ∧ (step_px px r).area_px = r.area_px
    ∧ (step_px px r).intensity_pixels = r.intensity_pixels
    ∧ (step_px px r).perimeter_px = r.perimeter_px
    ∧ (step_px px r).circularity = r.circularity
    ∧ (step_px px r).inertia = r.inertia
    ∧ (step_px px r).convexity = r.convexity
    ∧ (step_px px r).halo_eccentricity = r.halo_eccentricity := by
  unfold step_px
  rcases px with _ | v
  · simp
  · cases v with
    | num q =>
      dsimp only
      split
      · split <;> simp
      · simp
    | nonNum => simp

/-- The nonempty-path unfolding of `compute_metrics`. -/
theorem compute_metrics_unfold (fitE : EllipseFit) (image : Image) (roi : Roi)
    (px : Option PxVal) (di ds dh : Bool)
    (hsup : roi.rtype = "polygon" ∨ roi.rtype = "circle")
    (hne : gridAnyNe (rasterRoiMask image.height image.width roi) = true) :
    compute_metrics fitE image roi px di ds dh =
      step_px px
        (step_halo dh fitE (objMaskU8 image roi) (findContours (objMaskU8 image roi))
          (step_shape ds (findContours (objMaskU8 image roi))
            (step_intensity di image.toGray (objMaskU8 image roi)
              { emptyResults with
                  contours := some (findContours (objMaskU8 image roi)),
                  mask_full := some (gridMap (fun v => v != 0) (objMaskU8 image roi)) }))) := by
  unfold compute_metrics
  rw [if_pos hsup]
  simp only [hne, if_true, forceGrid_eq]
  rfl

theorem compute_metrics_unsupported (fitE : EllipseFit) (image : Image) (roi : Roi)
    (px : Option PxVal) (di ds dh : Bool)
    (h : ¬(roi.rtype = "polygon" ∨ roi.rtype = "circle")) :
    compute_metrics fitE image roi px di ds dh = emptyResults := by
  unfold compute_metrics
  rw [if_neg h]

theorem compute_metrics_emptyMask (fitE : EllipseFit) (image : Image) (roi : Roi)
    (px : Option PxVal) (di ds dh : Bool)
    (hsup : roi.rtype = "polygon" ∨ roi.rtype = "circle")
    (h : gridAnyNe (rasterRoiMask image.height image.width roi) = false) :
    compute_metrics fitE image roi px di ds dh = emptyResults := by
  unfold compute_metrics
  rw [if_pos hsup]
  simp [h]

/-! ### Concrete inputs used by counterexamples and witnesses -/

/-- A trivial ellipse-fit oracle (never consulted on the paths that use
it). -/
def fitZero : EllipseFit := fun _ => ((0, 0), (0, 0), 0)

/-- The fit oracle returning a box of width 2 and height 4 — the axes
ordering (`width ≤ height`) that OpenCV's `fitEllipse` guarantees. -/
def fitWide : EllipseFit := fun _ => ((0, 0), (2, 4), 0)

/-- 4×4 grayscale image, bright rim (200) around a dark 2×2 block (10). -/
def imgA : Image := .gray
  [[200, 200, 200, 200], [200, 10, 10, 200], [200, 10, 10, 200], [200, 200, 200, 200]]

/-- A circular ROI covering all of `imgA`. -/
def roiA : Roi := ⟨"circle", [], (1, 1), 9, "s1", "inkA", 0⟩

/-- 4×4 uniformly bright image: the Otsu classification marks every
pixel bright, so the object mask is empty and no contour exists. -/
def imgBright : Image := .gray
  [[200, 200, 200, 200], [200, 200, 200, 200], [200, 200, 200, 200], [200, 200, 200, 200]]

/-- 7×7 grayscale image, bright (200) with a dark 3×3 block (10) at
rows/columns 2–4: the 5×5 erosion kernel removes the block entirely, so
the halo ring is the block itself, whose compressed
(`CHAIN_APPROX_SIMPLE`) boundary has only its 4 corner points — below
the 5-point ellipse-fit threshold. -/
def imgHalo : Image := .gray (gridOfFn 7 7
  (fun i j => if 2 ≤ i ∧ i ≤ 4 ∧ 2 ≤ j ∧ j ≤ 4 then 10 else 200))

/-- A circular ROI covering all of `imgHalo`. -/
def roiHalo : Roi := ⟨"circle", [], (3, 3), 10, "s2", "inkB", 1⟩

/-- 8×8 grayscale image, bright (200) with a dark L-shaped object (10):
column 2 over rows 2–4 plus row 4 over columns 3–4.  Erosion empties the
L, so the halo is the L itself; its compressed boundary keeps 5 turn
points, enough for the ellipse fit to run. -/
def imgL : Image := .gray (gridOfFn 8 8 (fun i j =>
  if (j = 2 ∧ 2 ≤ i ∧ i ≤ 4) ∨ (i = 4 ∧ 3 ≤ j ∧ j ≤ 4) then 10 else 200))

/-- A circular ROI covering all of `imgL`. -/
def roiL : Roi := ⟨"circle", [], (3, 3), 12, "s3", "inkC", 2⟩

/-! ### C1 -/

/-- C1: for every image and supported ROI with a non-empty rasterized
mask, the returned `mask_full` equals `roi_mask ∧ ¬classification`
where the classification is the global Otsu threshold of the whole
image; consequently the object mask is a subset of the ROI mask. -/
theorem c1_object_mask_conjunction (fitE : EllipseFit) (image : Image) (roi : Roi)
    (px : Option PxVal) (di ds dh : Bool)
    (hsup : roi.rtype = "polygon" ∨ roi.rtype = "circle")
    (hne : gridAnyNe (rasterRoiMask image.height image.width roi) = true) :
    (compute_metrics fitE image roi px di ds dh).mask_full = some (objectMaskSpec image roi)
    ∧ gridSubset (objectMaskSpec image roi)
        (rasterRoiMask image.height image.width roi) = true := by
  constructor
  · rw [compute_metrics_unfold fitE image roi px di ds dh hsup hne]
    obtain ⟨-, hpx, -⟩ := step_px_keeps px _
    obtain ⟨-, hh, -⟩ := step_halo_keeps dh fitE _ _ _
    obtain ⟨-, hs, -⟩ := step_shape_keeps ds _ _
    obtain ⟨-, hi, -⟩ := step_intensity_keeps di _ _ _
    rw [hpx, hh, hs, hi, maskFull_eq_spec]
  · unfold objectMaskSpec
    refine grid_subset_aux _ (fun x y => ?_) _ _
    by_cases h : x = 0 <;> simp [h]

/-- Witness for C1 at `imgA` / `roiA`. -/
theorem c1_object_mask_conjunction_witness :
    (roiA.rtype = "polygon" ∨ roiA.rtype = "circle")
    ∧ gridAnyNe (rasterRoiMask imgA.height imgA.width roiA) = true
    ∧ ((compute_metrics fitZero imgA roiA none true false false).mask_full
        = some (objectMaskSpec imgA roiA)
      ∧ gridSubset (objectMaskSpec imgA roiA)
          (rasterRoiMask imgA.height imgA.width roiA) = true) :=
  ⟨Or.inr rfl, by decide,
    c1_object_mask_conjunction fitZero imgA roiA none true false false (Or.inr rfl) (by decide)⟩

/-! ### C5 -/

/-- C5: `compute_metrics` returns the empty record exactly when the ROI
tag is unsupported or the rasterized ROI mask has no set pixel; both are
values of the total function, not errors. -/
theorem c5_empty_record_iff (fitE : EllipseFit) (image : Image) (roi : Roi)
    (px : Option PxVal) (di ds dh : Bool) :
    compute_metrics fitE image roi px di ds dh = emptyResults
      ↔ (¬(roi.rtype = "polygon" ∨ roi.rtype = "circle")
         ∨ gridAnyNe (rasterRoiMask image.height image.width roi) = false) := by
  constructor
  · intro h
    by_cases hsup : roi.rtype = "polygon" ∨ roi.rtype = "circle"
    · cases hne : gridAnyNe (rasterRoiMask image.height image.width roi) with
      | false => exact Or.inr rfl
      | true =>
        exfalso
        have hc := congrArg Results.contours h
        rw [compute_metrics_unfold fitE image roi px di ds dh hsup hne] at hc
        obtain ⟨hpx, -⟩ := step_px_keeps px _
        obtain ⟨hh, -⟩ := step_halo_keeps dh fitE _ _ _
        obtain ⟨hs, -⟩ := step_shape_keeps ds _ _
        obtain ⟨hi, -⟩ := step_intensity_keeps di _ _ _
        rw [hpx, hh, hs, hi] at hc
        exact Option.noConfusion hc
    · exact Or.inl hsup
  · intro h
    by_cases hsup : roi.rtype = "polygon" ∨ roi.rtype = "circle"
    · rcases h with h | h
      · exact absurd hsup h
      · exact compute_metrics_emptyMask fitE image roi px di ds dh hsup h
    · exact compute_metrics_unsupported fitE image roi px di ds dh hsup

/-! ### C10 -/

/-- C10: for a supported ROI with a non-empty mask the record always
contains the contour list and the full-resolution boolean object mask,
whatever the three flags are; with all flags off these are its only
entries. -/
theorem c10_always_contours_mask (fitE : EllipseFit) (image : Image) (roi : Roi)
    (px : Option PxVal) (di ds dh : Bool)
    (hsup : roi.rtype = "polygon" ∨ roi.rtype = "circle")
    (hne : gridAnyNe (rasterRoiMask image.height image.width roi) = true) :
    (compute_metrics fitE image roi px di ds dh).contours
        = some (findContours (objMaskU8 image roi))
    ∧ (compute_metrics fitE image roi px di ds dh).mask_full
        = some (objectMaskSpec image roi)
    ∧ (di = false → ds = false → dh = false →
        (compute_metrics fitE image roi px di ds dh).mean_I = Fld.absent
        ∧ (compute_metrics fitE image roi px di ds dh).median_I = Fld.absent
        ∧ (compute_metrics fitE image roi px di ds dh).std_I = Fld.absent
        ∧ (compute_metrics fitE image roi px di ds dh).area_px = Fld.absent
        ∧ (compute_metrics fitE image roi px di ds dh).intensity_pixels = Fld.absent
        ∧ (compute_metrics fitE image roi px di ds dh).perimeter_px = Fld.absent
        ∧ (compute_metrics fitE image roi px di ds dh).circularity = Fld.absent
        ∧ (compute_metrics fitE image roi px di ds dh).inertia = Fld.absent
        ∧ (compute_metrics fitE image roi px di ds dh).convexity = Fld.absent
        ∧ (compute_metrics fitE image roi px di ds dh).halo_eccentricity = Fld.absent
        ∧ (compute_metrics fitE image roi px di ds dh).area_mm2 = Fld.absent) := by
  rw [compute_metrics_unfold fitE image roi px di ds dh hsup hne]
  refine ⟨?_, ?_, ?_⟩
  · obtain ⟨hpx, -⟩ := step_px_keeps px _
    obtain ⟨hh, -⟩ := step_halo_keeps dh fitE _ _ _
    obtain ⟨hs, -⟩ := step_shape_keeps ds _ _
    obtain ⟨hi, -⟩ := step_intensity_keeps di _ _ _
    rw [hpx, hh, hs, hi]
  · obtain ⟨-, hpx, -⟩ := step_px_keeps px _
    obtain ⟨-, hh, -⟩ := step_halo_keeps dh fitE _ _ _
    obtain ⟨-, hs, -⟩ := step_shape_keeps ds _ _
    obtain ⟨-, hi, -⟩ := step_intensity_keeps di _ _ _
    rw [hpx, hh, hs, hi, maskFull_eq_spec]
  · rintro rfl rfl rfl
    have hchain : step_halo false fitE (objMaskU8 image roi) (findContours (objMaskU8 image roi))
        (step_shape false (findContours (objMaskU8 image roi))
          (step_intensity false image.toGray (objMaskU8 image roi)
            { emptyResults with
                contours := some (findContours (objMaskU8 image roi)),
                mask_full := some (gridMap (fun v => v != 0) (objMaskU8 image roi)) }))
        = { emptyResults with
              contours := some (findContours (objMaskU8 image roi)),
              mask_full := some (gridMap (fun v => v != 0) (objMaskU8 image roi)) } := rfl
    rw [hchain]
    unfold step_px
    rcases px with _ | v
    · exact ⟨rfl, rfl, rfl, rfl, rfl, rfl, rfl, rfl, rfl, rfl, rfl⟩
    · cases v with
      | num q =>
        dsimp only
        split
        · exact ⟨rfl, rfl, rfl, rfl, rfl, rfl, rfl, rfl, rfl, rfl, rfl⟩
        · exact ⟨rfl, rfl, rfl, rfl, rfl, rfl, rfl, rfl, rfl, rfl, rfl⟩
      | nonNum => exact ⟨rfl, rfl, rfl, rfl, rfl, rfl, rfl, rfl, rfl, rfl, rfl⟩

/-- Witness for C10 at `imgA` / `roiA` with all flags off and a supplied
calibration factor. -/
theorem c10_always_contours_mask_witness :
    (roiA.rtype = "polygon" ∨ roiA.rtype = "circle")
    ∧ gridAnyNe (rasterRoiMask imgA.height imgA.width roiA) = true
    ∧ ((compute_metrics fitZero imgA roiA (some (.num (mkRat 10 1))) false false false).contours
        = some (findContours (objMaskU8 imgA roiA))
      ∧ (compute_metrics fitZero imgA roiA (some (.num (mkRat 10 1))) false false false).mask_full
        = some (objectMaskSpec imgA roiA)
      ∧ (false = false → false = false → false = false →
        (compute_metrics fitZero imgA roiA (some (.num (mkRat 10 1))) false false false).mean_I = Fld.absent
        ∧ (compute_metrics fitZero imgA roiA (some (.num (mkRat 10 1))) false false false).median_I = Fld.absent
        ∧ (compute_metrics fitZero imgA roiA (some (.num (mkRat 10 1))) false false false).std_I = Fld.absent
        ∧ (compute_metrics fitZero imgA roiA (some (.num (mkRat 10 1))) false false false).area_px = Fld.absent
        ∧ (compute_metrics fitZero imgA roiA (some (.num (mkRat 10 1))) false false false).intensity_pixels = Fld.absent
        ∧ (compute_metrics fitZero imgA roiA (some (.num (mkRat 10 1))) false false false).perimeter_px = Fld.absent
        ∧ (compute_metrics fitZero imgA roiA (some (.num (mkRat 10 1))) false false false).circularity = Fld.absent
        ∧ (compute_metrics fitZero imgA roiA (some (.num (mkRat 10 1))) false false false).inertia = Fld.absent
        ∧ (compute_metrics fitZero imgA roiA (some (.num (mkRat 10 1))) false false false).convexity = Fld.absent
        ∧ (compute_metrics fitZero imgA roiA (some (.num (mkRat 10 1))) false false false).halo_eccentricity = Fld.absent
        ∧ (compute_metrics fitZero imgA roiA (some (.num (mkRat 10 1))) false false false).area_mm2 = Fld.absent)) :=
  ⟨Or.inr rfl, by decide,
    c10_always_contours_mask fitZero imgA roiA (some (.num (mkRat 10 1))) false false false
      (Or.inr rfl) (by decide)⟩

/-! ### C2 -/

/-- Step 10's effect on `area_mm2`, for a record that does not yet carry
the field: the conversion happens exactly when `px_per_mm` is a positive
number *and* `area_px` is present. -/
theorem step_px_area_mm2 (px : Option PxVal) (r : Results) (h : r.area_mm2 = Fld.absent) :
    (step_px px r).area_mm2 = areaMm2Spec px r.area_px := by
  unfold step_px areaMm2Spec
  rcases px with _ | v
  · exact h
  · cases v with
    | nonNum => exact h
    | num q =>
      dsimp only
      by_cases hq : 0 < q
      · rw [if_pos ⟨hq.ne', hq⟩]
        cases hap : r.area_px with
        | val n => simp [hq]
        | absent => simpa [hap] using h
        | null => simpa [hap] using h
      · rw [if_neg (fun hc => hq hc.2)]
        cases hap : r.area_px with
        | val n => simpa [hq] using h
        | absent => simpa [hap] using h
        | null => simpa [hap] using h

/-- C2 (amended): `area_mm2` is present iff `px_per_mm` is a supplied
positive number and `area_px` is present in the record (the intensity
group ran on a supported, non-empty ROI), and then equals
`area_px / px_per_mm²` exactly; in every other case — including a
positive `px_per_mm` with the intensity group disabled — the field is
absent.  The conversion is a total function of the record (never an
error). -/
theorem c2_area_mm2_conversion (fitE : EllipseFit) (image : Image) (roi : Roi)
    (px : Option PxVal) (di ds dh : Bool) :
    (compute_metrics fitE image roi px di ds dh).area_mm2
      = areaMm2Spec px (compute_metrics fitE image roi px di ds dh).area_px := by
  by_cases hsup : roi.rtype = "polygon" ∨ roi.rtype = "circle"
  · cases hne : gridAnyNe (rasterRoiMask image.height image.width roi) with
    | false =>
      rw [compute_metrics_emptyMask fitE image roi px di ds dh hsup hne]
      unfold areaMm2Spec
      rcases px with _ | v
      · rfl
      · cases v with
        | num q => rfl
        | nonNum => rfl
    | true =>
      rw [compute_metrics_unfold fitE image roi px di ds dh hsup hne]
      obtain ⟨-, -, -, -, -, hap, -⟩ := step_px_keeps px _
      rw [hap]
      refine step_px_area_mm2 px _ ?_
      obtain ⟨-, -, -, -, -, -, -, -, -, -, -, hh⟩ := step_halo_keeps dh fitE _ _ _
      obtain ⟨-, -, -, -, -, -, -, -, hs⟩ := step_shape_keeps ds _ _
      obtain ⟨-, -, -, -, -, -, -, hi⟩ := step_intensity_keeps di _ _ _
      rw [hh, hs, hi]
      rfl
  · rw [compute_metrics_unsupported fitE image roi px di ds dh hsup]
    unfold areaMm2Spec
    rcases px with _ | v
    · rfl
    · cases v with
      | num q => rfl
      | nonNum => rfl

set_option maxRecDepth 2000000 in
/-- C2 counterexample: `px_per_mm = 10` is a supplied positive number,
the ROI is supported with a non-empty mask, yet `area_mm2` is absent
because the intensity group (hence `area_px`) is off — the claim's
"whenever px_per_mm is a supplied positive number" dichotomy fails. -/
theorem c2_absent_despite_positive_px :
    (0 : ℚ) < mkRat 10 1
    ∧ (roiA.rtype = "polygon" ∨ roiA.rtype = "circle")
    ∧ gridAnyNe (rasterRoiMask imgA.height imgA.width roiA) = true
    ∧ (compute_metrics fitZero imgA roiA (some (.num (mkRat 10 1))) false true false).area_mm2
        = Fld.absent := by
  refine ⟨by decide, Or.inr rfl, by decide, ?_⟩
  decide

/-! ### C3 -/

/-- The contour list of the main pipeline (step 6). -/
def mainContours (image : Image) (roi : Roi) : List (List Pt) :=
  findContours (objMaskU8 image roi)

/-- The contour the shape group selects. -/
def mainCnt (image : Image) (roi : Roi) : List Pt := maxByArea (mainContours image roi)

/-- The halo contour list of step 9. -/
def haloContours (image : Image) (roi : Roi) : List (List Pt) :=
  findContours (subtractU8 (objMaskU8 image roi) (erode5 (objMaskU8 image roi)))

set_option maxRecDepth 2000000 in
/-- C3 counterexample: on a uniformly bright image no contour exists, the
shape group is requested, and `perimeter_px` (like every shape field) is
*silently omitted* — `absent`, not present-with-null as the claim
requires.  The first conjunct shows the contour list of the produced
record is empty, so the shape computation was indeed "not well-defined"
here. -/
theorem c3_shape_fields_omitted :
    (compute_metrics fitZero imgBright roiA none true true true).contours = some []
    ∧ (compute_metrics fitZero imgBright roiA none true true true).perimeter_px = Fld.absent
    ∧ (compute_metrics fitZero imgBright roiA none true true true).inertia = Fld.absent := by
  refine ⟨?_, ?_, ?_⟩ <;> decide

theorem step_shape_noContours (ds : Bool) (cnts : List (List Pt)) (r : Results)
    (hE : cnts.isEmpty = true) : step_shape ds cnts r = r := by
  unfold step_shape
  rw [hE]
  simp

theorem step_halo_noContours (dh : Bool) (fitE : EllipseFit) (om : Grid ℕ)
    (cnts : List (List Pt)) (r : Results) (hE : cnts.isEmpty = true) :
    step_halo dh fitE om cnts r = r := by
  unfold step_halo
  rw [hE]
  simp

/-- When the halo's largest contour has fewer than 5 points, step 9
leaves the record untouched (in particular `halo_eccentricity` stays
absent). -/
theorem step_halo_fewPoints (fitE : EllipseFit) (om : Grid ℕ)
    (cnts : List (List Pt)) (r : Results) (hE : cnts.isEmpty = false)
    (hHE : (findContours (subtractU8 om (erode5 om))).isEmpty = false)
    (hlen : (maxByArea (findContours (subtractU8 om (erode5 om)))).length < 5) :
    step_halo true fitE om cnts r = r := by
  unfold step_halo
  rw [hE]
  simp only [Bool.not_false, Bool.and_true, eq_self_iff_true, if_true]
  rw [hHE]
  simp only [Bool.not_false, eq_self_iff_true, if_true]
  rw [if_neg (Nat.not_le.mpr hlen)]

/-- The shape fields step 8 writes when a contour exists. -/
theorem step_shape_fields (cnts : List (List Pt)) (r : Results) (hE : cnts.isEmpty = false) :
    (step_shape true cnts r).perimeter_px = Fld.val (segSqLens (maxByArea cnts))
    ∧ (step_shape true cnts r).circularity
      = (if arcLengthPos (maxByArea cnts) then
          Fld.val (contourArea (maxByArea cnts), segSqLens (maxByArea cnts))
        else Fld.null)
    ∧ (step_shape true cnts r).inertia
      = (if (rawMoments (maxByArea cnts)).a00 = 0 then r.inertia
        else if inertiaDenZero (rawMoments (maxByArea cnts)) then Fld.null
        else Fld.val (normalizedMu (rawMoments (maxByArea cnts))))
    ∧ (step_shape true cnts r).convexity
      = (if (orientedDoubleArea (convexHull (maxByArea cnts))).natAbs > 0 then
          Fld.val (mkRat ((orientedDoubleArea (maxByArea cnts)).natAbs : ℤ)
            ((orientedDoubleArea (convexHull (maxByArea cnts))).natAbs))
        else Fld.null) := by
  unfold step_shape
  rw [hE]
  simp only [Bool.not_false, Bool.and_true, eq_self_iff_true, if_true]
  by_cases h0 : (rawMoments (maxByArea cnts)).a00 = 0
  · rw [if_neg (fun hq => hq h0), if_pos h0]
    refine ⟨?_, ?_, ?_, ?_⟩ <;> first | rfl | trivial
  · rw [if_pos h0, if_neg h0]
    refine ⟨?_, ?_, ?_, ?_⟩ <;> first | rfl | trivial

/-- C3 (amended): when the shape group is requested, its fields are
*absent* (not null) whenever no contour exists; when a contour exists,
`perimeter_px` is present with a value, `circularity` is present and
null exactly when the perimeter is zero, `convexity` is present and null
exactly when the hull area is zero, but `inertia_ratio` is *absent*
(not null) when the selected contour's zeroth moment vanishes — null
only for a zero denominator with nonzero `m00`; and `halo_eccentricity`
is *absent* (not null) when the halo's largest contour has fewer than 5
points. -/
theorem c3_presence_pattern (fitE : EllipseFit) (image : Image) (roi : Roi)
    (px : Option PxVal) (di dh : Bool)
    (hsup : roi.rtype = "polygon" ∨ roi.rtype = "circle")
    (hne : gridAnyNe (rasterRoiMask image.height image.width roi) = true) :
    ((mainContours image roi).isEmpty = true →
        (compute_metrics fitE image roi px di true dh).perimeter_px = Fld.absent
        ∧ (compute_metrics fitE image roi px di true dh).circularity = Fld.absent
        ∧ (compute_metrics fitE image roi px di true dh).inertia = Fld.absent
        ∧ (compute_metrics fitE image roi px di true dh).convexity = Fld.absent
        ∧ (compute_metrics fitE image roi px di true dh).halo_eccentricity = Fld.absent)
    ∧ ((mainContours image roi).isEmpty = false →
        (compute_metrics fitE image roi px di true dh).perimeter_px
          = Fld.val (segSqLens (mainCnt image roi))
        ∧ (compute_metrics fitE image roi px di true dh).circularity
          = (if arcLengthPos (mainCnt image roi) then
              Fld.val (contourArea (mainCnt image roi), segSqLens (mainCnt image roi))
            else Fld.null)
        ∧ (compute_metrics fitE image roi px di true dh).inertia
          = (if (rawMoments (mainCnt image roi)).a00 = 0 then Fld.absent
            else if inertiaDenZero (rawMoments (mainCnt image roi)) then Fld.null
            else Fld.val (normalizedMu (rawMoments (mainCnt image roi))))
        ∧ (compute_metrics fitE image roi px di true dh).convexity
          = (if (orientedDoubleArea (convexHull (mainCnt image roi))).natAbs > 0 then
              Fld.val (mkRat ((orientedDoubleArea (mainCnt image roi)).natAbs : ℤ)
                ((orientedDoubleArea (convexHull (mainCnt image roi))).natAbs))
            else Fld.null))
    ∧ (dh = true →
        (mainContours image roi).isEmpty = false →
        (haloContours image roi).isEmpty = false →
        (maxByArea (haloContours image roi)).length < 5 →
        (compute_metrics fitE image roi px di true dh).halo_eccentricity = Fld.absent) := by
  rw [compute_metrics_unfold fitE image roi px di true dh hsup hne]
  unfold mainContours mainCnt haloContours
  obtain ⟨-, -, -, -, -, -, -, hxPe, hxCi, hxIn, hxCo, hxHa⟩ := step_px_keeps px _
  obtain ⟨-, -, hiPe, hiCi, hiIn, hiCo, hiHa, -⟩ :=
    step_intensity_keeps di image.toGray (objMaskU8 image roi)
      { emptyResults with
          contours := some (findContours (objMaskU8 image roi)),
          mask_full := some (gridMap (fun v => v != 0) (objMaskU8 image roi)) }
  refine ⟨?_, ?_, ?_⟩
  · intro hE
    rw [hxPe, hxCi, hxIn, hxCo, hxHa,
      step_halo_noContours dh fitE _ _ _ hE, step_shape_noContours true _ _ hE,
      hiPe, hiCi, hiIn, hiCo, hiHa]
    exact ⟨rfl, rfl, rfl, rfl, rfl⟩
  · intro hE
    obtain ⟨-, -, -, -, -, -, -, hhPe, hhCi, hhIn, hhCo, -⟩ :=
      step_halo_keeps dh fitE (objMaskU8 image roi) (findContours (objMaskU8 image roi))
        (step_shape true (findContours (objMaskU8 image roi))
          (step_intensity di image.toGray (objMaskU8 image roi)
            { emptyResults with
                contours := some (findContours (objMaskU8 image roi)),
                mask_full := some (gridMap (fun v => v != 0) (objMaskU8 image roi)) }))
    obtain ⟨hfPe, hfCi, hfIn, hfCo⟩ := step_shape_fields (findContours (objMaskU8 image roi))
      (step_intensity di image.toGray (objMaskU8 image roi)
        { emptyResults with
            contours := some (findContours (objMaskU8 image roi)),
            mask_full := some (gridMap (fun v => v != 0) (objMaskU8 image roi)) }) hE
    rw [hxPe, hxCi, hxIn, hxCo, hhPe, hhCi, hhIn, hhCo, hfPe, hfCi, hfIn, hfCo, hiIn]
    exact ⟨rfl, rfl, rfl, rfl⟩
  · intro hdh hE hHE hlen
    subst hdh
    obtain ⟨-, -, -, -, -, -, -, hsHa, -⟩ :=
      step_shape_keeps true (findContours (objMaskU8 image roi))
        (step_intensity di image.toGray (objMaskU8 image roi)
          { emptyResults with
              contours := some (findContours (objMaskU8 image roi)),
              mask_full := some (gridMap (fun v => v != 0) (objMaskU8 image roi)) })
    rw [hxHa, step_halo_fewPoints fitE _ _ _ hE hHE hlen, hsHa, hiHa]
    rfl

/-- Witness for C3 (amended) at `imgA` / `roiA`, where a contour exists. -/
theorem c3_presence_pattern_witness :
    (roiA.rtype = "polygon" ∨ roiA.rtype = "circle")
    ∧ gridAnyNe (rasterRoiMask imgA.height imgA.width roiA) = true
    ∧ (((mainContours imgA roiA).isEmpty = true →
        (compute_metrics fitZero imgA roiA none true true false).perimeter_px = Fld.absent
        ∧ (compute_metrics fitZero imgA roiA none true true false).circularity = Fld.absent
        ∧ (compute_metrics fitZero imgA roiA none true true false).inertia = Fld.absent
        ∧ (compute_metrics fitZero imgA roiA none true true false).convexity = Fld.absent
        ∧ (compute_metrics fitZero imgA roiA none true true false).halo_eccentricity = Fld.absent)
    ∧ ((mainContours imgA roiA).isEmpty = false →
        (compute_metrics fitZero imgA roiA none true true false).perimeter_px
          = Fld.val (segSqLens (mainCnt imgA roiA))
        ∧ (compute_metrics fitZero imgA roiA none true true false).circularity
          = (if arcLengthPos (mainCnt imgA roiA) then
              Fld.val (contourArea (mainCnt imgA roiA), segSqLens (mainCnt imgA roiA))
            else Fld.null)
        ∧ (compute_metrics fitZero imgA roiA none true true false).inertia
          = (if (rawMoments (mainCnt imgA roiA)).a00 = 0 then Fld.absent
            else if inertiaDenZero (rawMoments (mainCnt imgA roiA)) then Fld.null
            else Fld.val (normalizedMu (rawMoments (mainCnt imgA roiA))))
        ∧ (compute_metrics fitZero imgA roiA none true true false).convexity
          = (if (orientedDoubleArea (convexHull (mainCnt imgA roiA))).natAbs > 0 then
              Fld.val (mkRat ((orientedDoubleArea (mainCnt imgA roiA)).natAbs : ℤ)
                ((orientedDoubleArea (convexHull (mainCnt imgA roiA))).natAbs))
            else Fld.null))
    ∧ (false = true →
        (mainContours imgA roiA).isEmpty = false →
        (haloContours imgA roiA).isEmpty = false →
        (maxByArea (haloContours imgA roiA)).length < 5 →
        (compute_metrics fitZero imgA roiA none true true false).halo_eccentricity = Fld.absent)) :=
  ⟨Or.inr rfl, by decide,
    c3_presence_pattern fitZero imgA roiA none true false (Or.inr rfl) (by decide)⟩

/-! ### C4 -/

set_option maxRecDepth 2000000 in
/-- C4 evaluation.  First conjuncts: on `imgHalo` the compressed halo
contour has only 4 points, so the field stays absent — the claim's
"fewer than 5 points" conjunct matches the code.  Remaining conjuncts,
at the failing input: on `imgL` the halo group runs, the compressed halo
contour has 5 ≥ 5 points, and the fit returns axes `(2, 4)` — the
`width ≤ height` ordering OpenCV's `fitEllipse` always produces.  The
source sets `a = axes[0]/2 = 1`, `b = axes[1]/2 = 2` *without sorting*
and stores `np.sqrt(1 - b²/a²) = np.sqrt(-3)`, i.e. `NaN`: the recorded
radicand is `-3 < 0`.  The spec's value (semi-major axis `a = 2 ≥ b = 1`)
has radicand `3/4`, eccentricity `sqrt(3)/2 ∈ [0, 1)`.  The claim — the
stored value equals `sqrt(1 - (b/a)²)` with `a ≥ b` and lies in `[0, 1)`
whenever computed — is therefore violated by the code. -/
theorem c4_halo_nan_radicand :
    ((maxByArea (haloContours imgHalo roiHalo)).length = 4
      ∧ (compute_metrics fitWide imgHalo roiHalo none false false true).halo_eccentricity
          = Fld.absent)
    ∧ (maxByArea (haloContours imgL roiL)).length = 5
    ∧ (compute_metrics fitWide imgL roiL none false false true).halo_eccentricity
        = Fld.val (mkRat (-3) 1)
    ∧ mkRat (-3) 1 < 0
    ∧ specEccRadicand 2 4 = mkRat 3 4
    ∧ (0 : ℚ) ≤ mkRat 3 4 ∧ mkRat 3 4 < 1
    ∧ Fld.val (mkRat (-3) 1) ≠ Fld.val (specEccRadicand 2 4) := by
  refine ⟨⟨by decide, ?_⟩, by decide, ?_, by decide, by decide, by decide, by decide, by decide⟩
  · decide
  · decide

/-! ### C6 -/

theorem row_masked (r s : List ℕ) :
    (List.zipWith (fun v mv => (v, mv)) r s).filterMap
        (fun p => if p.2 != 0 then some p.1 else none)
      = (List.zipWith (fun v b => (v, b)) r (s.map (fun v => v != 0))).filterMap
          (fun p => if p.2 then some p.1 else none) := by
  induction r generalizing s with
  | nil => cases s <;> rfl
  | cons a t ih =>
    cases s with
    | nil => rfl
    | cons b u =>
      rw [List.zipWith_cons_cons, List.map_cons, List.zipWith_cons_cons]
      by_cases hb : b = 0
      · subst hb
        rw [List.filterMap_cons_none (by rfl), List.filterMap_cons_none (by rfl), ih u]
      · have hb' : (b != 0) = true := by simpa using hb
        rw [@List.filterMap_cons_some (ℕ × ℕ) ℕ _ (a, b) _ a (by simp [hb']),
          @List.filterMap_cons_some (ℕ × Bool) ℕ _ (a, b != 0) _ a (by simp [hb']), ih u]

/-- The source's row-major fancy indexing `gray[object_mask.astype(bool)]`
selects exactly the spec's object pixels. -/
theorem maskedPixels_eq_boolSelect (g m : Grid ℕ) :
    maskedPixels g m
      = ((gridZip (fun v b => (v, b)) g (gridMap (fun v => v != 0) m)).flatten).filterMap
          (fun p => if p.2 then some p.1 else none) := by
  unfold maskedPixels gridZip gridMap
  induction g generalizing m with
  | nil => cases m <;> rfl
  | cons r t ih =>
    cases m with
    | nil => rfl
    | cons s u =>
      simp only [List.map_cons, List.zipWith_cons_cons, List.flatten_cons,
        List.filterMap_append]
      rw [ih u, row_masked r s]

/-- `np.sum(object_mask > 0)` equals the count of `True` pixels of the
boolean `mask_full`. -/
theorem countNonzero_eq_countTrue (m : Grid ℕ) :
    countNonzero m = countTrue (gridMap (fun v => v != 0) m) := by
  unfold countNonzero countTrue gridMap
  induction m with
  | nil => rfl
  | cons r t ih =>
    simp only [List.map_cons, List.flatten_cons, List.countP_append, ih]
    congr 1
    induction r with
    | nil => rfl
    | cons a u ihr =>
      rw [List.countP_cons, List.map_cons, List.countP_cons, ihr]
      rfl

/-- The fields step 7 writes. -/
theorem step_intensity_fields (g om : Grid ℕ) (r : Results) :
    (step_intensity true g om r).area_px = Fld.val (countNonzero om)
    ∧ (step_intensity true g om r).intensity_pixels = Fld.val (maskedPixels g om)
    ∧ (maskedPixels g om = [] →
        (step_intensity true g om r).mean_I = Fld.null
        ∧ (step_intensity true g om r).median_I = Fld.null
        ∧ (step_intensity true g om r).std_I = Fld.null)
    ∧ (maskedPixels g om ≠ [] →
        (step_intensity true g om r).mean_I = Fld.val (npMean (maskedPixels g om))
        ∧ (step_intensity true g om r).median_I = Fld.val (npMedian (maskedPixels g om))
        ∧ (step_intensity true g om r).std_I = Fld.val (npVarianceSq (maskedPixels g om))) := by
  unfold step_intensity
  rw [if_pos rfl]
  dsimp only
  by_cases hlen : (maskedPixels g om).length > 0
  · have hne : maskedPixels g om ≠ [] := by
      intro h
      rw [h] at hlen
      exact Nat.lt_irrefl 0 hlen
    rw [if_pos hlen]
    exact ⟨rfl, rfl, fun h => absurd h hne, fun _ => ⟨rfl, rfl, rfl⟩⟩
  · have hemp : maskedPixels g om = [] := by
      cases h : maskedPixels g om with
      | nil => rfl
      | cons a t => rw [h] at hlen; exact absurd (Nat.succ_pos _) hlen
    rw [if_neg hlen]
    exact ⟨rfl, rfl, fun _ => ⟨rfl, rfl, rfl⟩, fun h => absurd hemp h⟩

/-- C6: when the intensity group runs on a supported non-empty ROI,
`area_px` counts the `True` pixels of the object mask (even when zero);
with an empty object the three statistics are null and the raw sequence
is empty; otherwise the statistics are the arithmetic mean, the median
and the population standard deviation (recorded by its square, see
`Results.std_I`) of the grayscale values of exactly the object-mask
pixels. -/
theorem c6_intensity_stats (fitE : EllipseFit) (image : Image) (roi : Roi)
    (px : Option PxVal) (ds dh : Bool)
    (hsup : roi.rtype = "polygon" ∨ roi.rtype = "circle")
    (hne : gridAnyNe (rasterRoiMask image.height image.width roi) = true) :
    (compute_metrics fitE image roi px true ds dh).area_px
      = Fld.val (countTrue (objectMaskSpec image roi))
    ∧ (compute_metrics fitE image roi px true ds dh).intensity_pixels
      = Fld.val (objectPixelsSpec image roi)
    ∧ (objectPixelsSpec image roi = [] →
        (compute_metrics fitE image roi px true ds dh).mean_I = Fld.null
        ∧ (compute_metrics fitE image roi px true ds dh).median_I = Fld.null
        ∧ (compute_metrics fitE image roi px true ds dh).std_I = Fld.null)
    ∧ (objectPixelsSpec image roi ≠ [] →
        (compute_metrics fitE image roi px true ds dh).mean_I
          = Fld.val (npMean (objectPixelsSpec image roi))
        ∧ (compute_metrics fitE image roi px true ds dh).median_I
          = Fld.val (npMedian (objectPixelsSpec image roi))
        ∧ (compute_metrics fitE image roi px true ds dh).std_I
          = Fld.val (npVarianceSq (objectPixelsSpec image roi))) := by
  have hsel : maskedPixels image.toGray (objMaskU8 image roi) = objectPixelsSpec image roi := by
    unfold objectPixelsSpec
    rw [← maskFull_eq_spec]
    exact maskedPixels_eq_boolSelect image.toGray (objMaskU8 image roi)
  have hcnt : countNonzero (objMaskU8 image roi) = countTrue (objectMaskSpec image roi) := by
    rw [← maskFull_eq_spec]
    exact countNonzero_eq_countTrue (objMaskU8 image roi)
  rw [compute_metrics_unfold fitE image roi px true ds dh hsup hne]
  obtain ⟨-, -, hxMe, hxMd, hxSt, hxAp, hxIp, -⟩ := step_px_keeps px _
  obtain ⟨-, -, hhMe, hhMd, hhSt, hhAp, hhIp, -⟩ := step_halo_keeps dh fitE _ _ _
  obtain ⟨-, -, hsMe, hsMd, hsSt, hsAp, hsIp, -⟩ := step_shape_keeps ds _ _
  obtain ⟨hfAp, hfIp, hfNull, hfVal⟩ := step_intensity_fields image.toGray (objMaskU8 image roi)
    { emptyResults with
        contours := some (findContours (objMaskU8 image roi)),
        mask_full := some (gridMap (fun v => v != 0) (objMaskU8 image roi)) }
  rw [hsel] at hfIp hfNull hfVal
  rw [hcnt] at hfAp
  rw [hxAp, hhAp, hsAp, hfAp, hxIp, hhIp, hsIp, hfIp, hxMe, hhMe, hsMe, hxMd, hhMd, hsMd,
    hxSt, hhSt, hsSt]
  exact ⟨rfl, rfl, hfNull, hfVal⟩

set_option maxRecDepth 2000000 in
/-- Witness for C6 at `imgA` / `roiA` (object pixels present). -/
theorem c6_intensity_stats_witness :
    (roiA.rtype = "polygon" ∨ roiA.rtype = "circle")
    ∧ gridAnyNe (rasterRoiMask imgA.height imgA.width roiA) = true
    ∧ objectPixelsSpec imgA roiA ≠ []
    ∧ ((compute_metrics fitZero imgA roiA none true false false).area_px
        = Fld.val (countTrue (objectMaskSpec imgA roiA))
      ∧ (compute_metrics fitZero imgA roiA none true false false).intensity_pixels
        = Fld.val (objectPixelsSpec imgA roiA)
      ∧ (objectPixelsSpec imgA roiA = [] →
          (compute_metrics fitZero imgA roiA none true false false).mean_I = Fld.null
          ∧ (compute_metrics fitZero imgA roiA none true false false).median_I = Fld.null
          ∧ (compute_metrics fitZero imgA roiA none true false false).std_I = Fld.null)
      ∧ (objectPixelsSpec imgA roiA ≠ [] →
          (compute_metrics fitZero imgA roiA none true false false).mean_I
            = Fld.val (npMean (objectPixelsSpec imgA roiA))
          ∧ (compute_metrics fitZero imgA roiA none true false false).median_I
            = Fld.val (npMedian (objectPixelsSpec imgA roiA))
          ∧ (compute_metrics fitZero imgA roiA none true false false).std_I
            = Fld.val (npVarianceSq (objectPixelsSpec imgA roiA)))) :=
  ⟨Or.inr rfl, by decide, by decide,
    c6_intensity_stats fitZero imgA roiA none false false (Or.inr rfl) (by decide)⟩

/-! ### C7 -/

theorem thr_pixel (t p : ℕ) : ((if t < p then (255 : ℕ) else 0) != 0) = decide (t < p) := by
  by_cases h : t < p <;> simp [h]

theorem getD_replicate_lt {α : Type} (a d : α) (n i : ℕ) (h : i < n) :
    (List.replicate n a).getD i d = a := by
  induction n generalizing i with
  | zero => exact absurd h (Nat.not_lt_zero i)
  | succ m ih =>
    cases i with
    | zero => rfl
    | succ k =>
      rw [List.replicate_succ, List.getD_cons_succ]
      exact ih k (Nat.lt_of_succ_lt_succ h)

/-- C7: `threshold_image` classifies a pixel as `True` exactly when its
grayscale value is strictly above the Otsu threshold of the (grayscale
converted) image — stated pointwise, including out-of-range indices,
where both sides give `False`.  It is a pure function of the image
(determinism), total on every image, and on a degenerate single-intensity
image the classification is the same on every pixel (all on one side). -/
theorem c7_threshold_strictly_above :
    (∀ (image : Image) (i j : ℕ),
        gridGet (threshold_image image) i j false
          = decide (otsuThreshold image.toGray < gridGet image.toGray i j 0))
    ∧ (∀ h w v i j i' j' : ℕ, i < h → j < w → i' < h → j' < w →
        gridGet (threshold_image (Image.gray (List.replicate h (List.replicate w v)))) i j false
          = gridGet (threshold_image (Image.gray (List.replicate h (List.replicate w v))))
              i' j' false) := by
  have hpix : ∀ (image : Image) (i j : ℕ),
      gridGet (threshold_image image) i j false
        = decide (otsuThreshold image.toGray < gridGet image.toGray i j 0) := by
    intro image i j
    unfold threshold_image gridGet
    rw [withNat_eq]
    unfold gridMap
    rw [getD_map_nil, getD_map_nil, List.map_map]
    have hdef : (false : Bool)
        = ((fun v => v != 0) ∘ fun p => if otsuThreshold image.toGray < p then (255 : ℕ) else 0) 0 := by
      simp
    rw [hdef, getD_map_d]
    exact thr_pixel _ _
  refine ⟨hpix, ?_⟩
  intro h w v i j i' j' hi hj hi' hj'
  rw [hpix, hpix]
  have hg : ∀ a b : ℕ, a < h → b < w →
      gridGet (Image.gray (List.replicate h (List.replicate w v))).toGray a b 0 = v := by
    intro a b ha hb
    unfold Image.toGray gridGet
    rw [getD_replicate_lt _ _ _ _ ha, getD_replicate_lt _ _ _ _ hb]
  rw [hg i j hi hj, hg i' j' hi' hj']

/-- Witness for C7: a pixel of `imgA`, and the two bounded indices of a
1×1 constant image. -/
theorem c7_threshold_strictly_above_witness :
    gridGet (threshold_image imgA) 1 1 false
      = decide (otsuThreshold imgA.toGray < gridGet imgA.toGray 1 1 0)
    ∧ (0 < 1
      ∧ gridGet (threshold_image (Image.gray (List.replicate 1 (List.replicate 1 5)))) 0 0 false
        = gridGet (threshold_image (Image.gray (List.replicate 1 (List.replicate 1 5))))
            0 0 false) :=
  ⟨c7_threshold_strictly_above.1 imgA 1 1,
   ⟨Nat.zero_lt_one,
    c7_threshold_strictly_above.2 1 1 5 0 0 0 0 Nat.zero_lt_one Nat.zero_lt_one
      Nat.zero_lt_one Nat.zero_lt_one⟩⟩

/-! ### C8 (main.py lines 41-56: per-ROI record assembly) -/

/-- The per-ROI record `main` builds: the dict returned by
`compute_metrics`, updated in place with the ROI's caller metadata and
its own `mask_full` (`metrics.get('mask_full')`, null when the core
produced no mask). -/
structure MainRecord where
  metrics : Results
  label : String
  ink_key : String
  rep : ℕ
  mask_full : Option (Grid Bool)
deriving DecidableEq

def assembleRecord (m : Results) (roi : Roi) : MainRecord :=
  ⟨m, roi.label, roi.ink_key, roi.rep, m.mask_full⟩

def mainPerRoi (fitE : EllipseFit) (image : Image) (roi : Roi)
    (px : Option PxVal) (di ds dh : Bool) : MainRecord :=
  assembleRecord (compute_metrics fitE image roi px di ds dh) roi

/-- C8: the caller metadata (`label`, `ink_key`, `rep`) appears unchanged
in the per-ROI metrics record, alongside the core's untouched output; the
core itself never reads the metadata — its result is invariant under any
change of the three metadata fields. -/
theorem c8_metadata_passthrough (fitE : EllipseFit) (image : Image) (roi : Roi)
    (px : Option PxVal) (di ds dh : Bool) :
    (mainPerRoi fitE image roi px di ds dh).label = roi.label
    ∧ (mainPerRoi fitE image roi px di ds dh).ink_key = roi.ink_key
    ∧ (mainPerRoi fitE image roi px di ds dh).rep = roi.rep
    ∧ (mainPerRoi fitE image roi px di ds dh).metrics
        = compute_metrics fitE image roi px di ds dh
    ∧ (mainPerRoi fitE image roi px di ds dh).mask_full
        = (compute_metrics fitE image roi px di ds dh).mask_full
    ∧ ∀ (l k : String) (rp : ℕ),
        compute_metrics fitE image { roi with label := l, ink_key := k, rep := rp } px di ds dh
          = compute_metrics fitE image roi px di ds dh :=
  ⟨rfl, rfl, rfl, rfl, rfl, fun l k rp => by cases roi; rfl⟩

/-! ### C9 (frame effect: the engine never writes the input image)

The source manipulates numpy/OpenCV buffers.  The only *in-place* writes
in `compute_metrics` are `cv2.fillPoly(mask, ...)` / `cv2.circle(mask,
...)` into the freshly allocated `mask = np.zeros(...)` and the boolean
assignment into the freshly allocated `object_mask = np.zeros_like(mask)`;
every other array (`cvtColor`, `bitwise_and`, `threshold`, `astype`,
`erode`, `subtract`, fancy indexing) is a freshly allocated output.  The
heap model below makes the buffers and the targets of each write
explicit: buffers live in an indexed store, `halloc` appends a fresh
buffer, `hstore` overwrites one in place; the input image is one of the
pre-existing buffers (`gray = image` aliases it when the image is
2-D — no copy is modelled, matching the source).  The theorem shows the
whole run leaves every pre-existing buffer, in particular the image,
unchanged. -/

inductive Buf
  | u8 (g : Grid ℕ)
  | c3 (g : Grid (ℕ × ℕ × ℕ))
  | bl (g : Grid Bool)
deriving DecidableEq

def Buf.asImage : Buf → Image
  | .u8 g => .gray g
  | .c3 g => .bgr g
  | .bl _ => .gray []

structure Heap where
  bufs : List Buf
deriving DecidableEq

/-- Allocate a fresh buffer; returns its index. -/
def halloc (h : Heap) (b : Buf) : Heap × ℕ := (⟨h.bufs ++ [b]⟩, h.bufs.length)

/-- Overwrite buffer `i` in place. -/
def hstore (h : Heap) (i : ℕ) (b : Buf) : Heap := ⟨h.bufs.set i b⟩

/-- `threshold_image`'s buffer traffic: a fresh grayscale conversion when
3-channel (else `gray` aliases the argument), the fresh `cv2.threshold`
output, and the fresh `.astype(bool)` result. -/
def threshold_image_heap (h : Heap) (image : Image) : Heap × Grid Bool :=
  let h1 := if image.channels3 then (halloc h (Buf.u8 image.toGray)).1 else h
  let h2 := (halloc h1 (Buf.u8 (gridMap
    (fun p => if otsuThreshold image.toGray < p then (255 : ℕ) else 0) image.toGray))).1
  let h3 := (halloc h2 (Buf.bl (threshold_image image))).1
  (h3, threshold_image image)

/-- `compute_metrics` with the buffer traffic of analyzer.py made
explicit (the stored values are those of the pure model; the step-7/8
statistics allocate only fresh arrays that are never written in place,
so they do not appear in the heap). -/
def compute_metrics_heap (fitE : EllipseFit) (h0 : Heap) (imgIdx : ℕ) (roi : Roi)
    (px : Option PxVal) (di ds dh : Bool) : Heap × Results :=
  let image := (h0.bufs.getD imgIdx (Buf.u8 [])).asImage
  -- mask = np.zeros(image.shape[:2], dtype=np.uint8)
  let p1 := halloc h0 (Buf.u8 (zerosU8 image.height image.width))
  if roi.rtype = "polygon" ∨ roi.rtype = "circle" then
    -- cv2.fillPoly(mask, ...) / cv2.circle(mask, ...): in-place on mask
    let h2 := hstore p1.1 p1.2 (Buf.u8 (rasterRoiMask image.height image.width roi))
    -- gray = image (alias) or a fresh cvtColor output
    let h3 := if image.channels3 then (halloc h2 (Buf.u8 image.toGray)).1 else h2
    -- roi_gray = cv2.bitwise_and(gray, gray, mask=mask): fresh output
    let h4 := (halloc h3 (Buf.u8 (bitwiseAndMask image.toGray
      (rasterRoiMask image.height image.width roi)))).1
    if gridAnyNe (rasterRoiMask image.height image.width roi) then
      let p5 := threshold_image_heap h4 image
      -- object_mask = np.zeros_like(mask); object_mask[...] = 255 (in place)
      let p6 := halloc p5.1 (Buf.u8 (zerosU8 image.height image.width))
      let h7 := hstore p6.1 p6.2 (Buf.u8 (objMaskU8 image roi))
      -- results['mask_full'] = object_mask.astype(bool): fresh
      let h8 := (halloc h7 (Buf.bl (gridMap (fun v => v != 0) (objMaskU8 image roi)))).1
      -- step 9: cv2.erode and cv2.subtract produce fresh outputs
      let h9 := if dh && !(findContours (objMaskU8 image roi)).isEmpty then
          let hA := (halloc h8 (Buf.u8 (erode5 (objMaskU8 image roi)))).1
          (halloc hA (Buf.u8 (subtractU8 (objMaskU8 image roi)
            (erode5 (objMaskU8 image roi))))).1
        else h8
      (h9, compute_metrics fitE image roi px di ds dh)
    else (h4, emptyResults)
  else (p1.1, emptyResults)

theorem set_append_last {α : Type} (l : List α) (a c : α) :
    (l ++ [a]).set l.length c = l ++ [c] := by
  induction l with
  | nil => rfl
  | cons x t ih => simpa using ih

/-- C9: a run of the engine leaves every pre-existing buffer — in
particular the input image, whichever index it occupies — exactly as it
was: only the freshly allocated mask buffers are ever written. -/
theorem c9_input_image_unchanged (fitE : EllipseFit) (h0 : Heap) (imgIdx : ℕ) (roi : Roi)
    (px : Option PxVal) (di ds dh : Bool) :
    ((compute_metrics_heap fitE h0 imgIdx roi px di ds dh).1).bufs.take h0.bufs.length
      = h0.bufs := by
  unfold compute_metrics_heap threshold_image_heap halloc hstore
  dsimp only
  split
  · split
    · split <;> split <;>
        simp [set_append_last, List.append_assoc, List.take_left]
    · split <;> simp [set_append_last, List.append_assoc, List.take_left]
  · simp [List.take_left]

end Rfam
